import Mathlib

/-!
Shallow embedding, in Lean 4, of the trading bot's decision core
(indicators, strategies, position sizing, ledger, trade management,
session loop), translated from the repository's Python source.

Conventions of the embedding:
* Python floats are modelled as exact rationals (`ℚ`); `float("nan")`
  results are modelled by `Option ℚ` with `none` for NaN.
* Python's falsy-`or` default idiom (`x or d`, where `x` is a number
  that may be `None` or `0.0`) is modelled by `pyOr`.
* Fallible data access (`try`/`except` around broker calls) is modelled
  by `Option` inputs: `none` stands for a raised exception.
* `round(x, 2)` is modelled by `round2`, round-half-to-even at two
  decimal places, Python's rounding mode.
-/

namespace IGBot

/-- Python's `x or default` for an optional numeric `x`: `None` and
`0.0` are falsy and select the default. -/
def pyOr (x : Option ℚ) (d : ℚ) : ℚ :=
  match x with
  | some v => if v = 0 then d else v
  | none => d

/-- Python's `x or default` for an optional string. -/
def pyOrStr (x : Option String) (d : String) : String :=
  match x with
  | some v => if v = "" then d else v
  | none => d

/-- Python's `str.lower()`, character by character. -/
def strLower (s : String) : String := ⟨s.data.map Char.toLower⟩

/-- Round-half-to-even to an integer (Python's `round` on a value with
no representation error). -/
def roundHalfEven (q : ℚ) : ℤ :=
  let f : ℤ := ⌊q⌋
  let r : ℚ := q - f
  if r < 1/2 then f
  else if 1/2 < r then f + 1
  else if Even f then f else f + 1

/-- Python's `round(x, 2)`. -/
def round2 (q : ℚ) : ℚ := (roundHalfEven (100 * q) : ℚ) / 100

/-- A bid/ask/mid price triple as found under `closePrice`, `highPrice`,
`lowPrice` of an IG bar (each field may be absent in the JSON). -/
structure PriceQuote where
  bid : Option ℚ
  ask : Option ℚ
  mid : Option ℚ
  deriving Repr, DecidableEq

/-- One OHLC bar as returned by `recent_prices` (`prices` entries). -/
structure Bar where
  closePrice : PriceQuote
  highPrice : PriceQuote
  lowPrice : PriceQuote
  deriving Repr, DecidableEq

/-- A quote with only a mid value, a convenience constructor. -/
def midOnly (m : ℚ) : PriceQuote := ⟨none, none, some m⟩

/-- `indicators._bar_mid` applied to one quote: the `mid` field, or the
bid/ask average when `mid` is absent. -/
def quoteMid (d : PriceQuote) : Option ℚ :=
  match d.mid with
  | some m => some m
  | none =>
    match d.bid, d.ask with
    | some b, some a => some ((b + a) / 2)
    | _, _ => none

/-- `indicators.extract_ohlc`: the (closes, highs, lows) triples of the
bars whose three mids are all derivable, kept in order. -/
def extract_ohlc (bars : List Bar) : List ℚ × List ℚ × List ℚ :=
  match bars with
  | [] => ([], [], [])
  | b :: rest =>
    let (cs, hs, ls) := extract_ohlc rest
    match quoteMid b.closePrice, quoteMid b.highPrice, quoteMid b.lowPrice with
    | some c, some h, some l => (c :: cs, h :: hs, l :: ls)
    | _, _, _ => (cs, hs, ls)

/-- `indicators.ema` seeded at the first value; `none` models the NaN
returned for an empty list. -/
def ema (values : List ℚ) (period : ℕ) : Option ℚ :=
  match values with
  | [] => none
  | v :: rest =>
    let k : ℚ := 2 / ((period : ℚ) + 1)
    some (rest.foldl (fun e x => x * k + e * (1 - k)) v)

/-- `indicators.ema_of_closes`. -/
def ema_of_closes (bars : List Bar) (period : ℕ) : Option ℚ :=
  ema (extract_ohlc bars).1 period

/-- `indicators.sma`: simple average of the last `period` values, `none`
(NaN) when fewer than `period` values exist.  The source divides by
`float(period)`; `period ≥ 1` at every call site. -/
def sma (values : List ℚ) (period : ℕ) : Option ℚ :=
  if values.length < period then none
  else some ((values.drop (values.length - period)).sum / (period : ℚ))

/-- The true-range accumulation loop of `indicators.compute_atr_points`:
walk the bars keeping the previous close, emit
`max(high − low, |high − prev_close|, |low − prev_close|)` whenever
high, low and the previous close are all available. -/
def trLoop (prevClose : Option ℚ) (bars : List Bar) : List ℚ :=
  match bars with
  | [] => []
  | b :: rest =>
    match quoteMid b.highPrice, quoteMid b.lowPrice, prevClose with
    | some h, some l, some pc =>
      max (h - l) (max |h - pc| |l - pc|) :: trLoop (quoteMid b.closePrice) rest
    | _, _, _ => trLoop (quoteMid b.closePrice) rest

/-- `indicators.compute_atr_points`: `none` models the NaN returned when
fewer than `period + 1` bars or fewer than `period` true ranges exist;
otherwise the plain average of the last `period` true ranges. -/
def compute_atr_points (bars : List Bar) (period : ℕ) : Option ℚ :=
  if bars.length < period + 1 then none
  else
    match bars with
    | [] => none
    | b0 :: rest =>
      let trs := trLoop (quoteMid b0.closePrice) rest
      if trs.length < period then none
      else some ((trs.drop (trs.length - period)).sum / (period : ℚ))

/-- `indicators.latest_mid_and_spread`: mid and bid/ask spread of the
last bar's close quote. -/
def latest_mid_and_spread (bars : List Bar) : Option ℚ × Option ℚ :=
  match bars.getLast? with
  | none => (none, none)
  | some b =>
    let cp := b.closePrice
    let m : Option ℚ :=
      match cp.mid with
      | some x => some x
      | none =>
        match cp.bid, cp.ask with
        | some bq, some aq => some ((bq + aq) / 2)
        | _, _ => none
    let s : Option ℚ :=
      match cp.bid, cp.ask with
      | some bq, some aq => some (aq - bq)
      | _, _ => none
    (m, s)

/-- The smoothing loop of `indicators.rsi_series`: starting from the
seeded average gain/loss, each step updates both averages by
`(avg * (period − 1) + x) / period` and emits the RSI value.  An
average loss of zero gives RS = ∞ in the source and hence RSI = 100. -/
def rsiLoop (period : ℕ) (avgGain avgLoss : ℚ) : List (ℚ × ℚ) → List ℚ
  | [] => []
  | (g, l) :: rest =>
    let ag := (avgGain * ((period : ℚ) - 1) + g) / (period : ℚ)
    let al := (avgLoss * ((period : ℚ) - 1) + l) / (period : ℚ)
    let r : ℚ := if al = 0 then 100 else 100 - 100 / (1 + ag / al)
    r :: rsiLoop period ag al rest

/-- The per-step gain/loss pairs of `indicators.rsi_series`:
`(max(Δ, 0), max(−Δ, 0))` over consecutive close differences. -/
def gainLossPairs (closes : List ℚ) : List (ℚ × ℚ) :=
  (closes.zip closes.tail).map (fun p => (max (p.2 - p.1) 0, max (p.1 - p.2) 0))

/-- `indicators.rsi_series`: empty when fewer than `period + 1` closes;
otherwise seed the average gain/loss over the first `period` steps and
run the Wilder smoothing loop over the remaining steps. -/
def rsi_series (closes : List ℚ) (period : ℕ) : List ℚ :=
  if closes.length < period + 1 then []
  else
    let pairs := gainLossPairs closes
    let seedGain := ((pairs.take period).map Prod.fst).sum / (period : ℚ)
    let seedLoss := ((pairs.take period).map Prod.snd).sum / (period : ℚ)
    rsiLoop period seedGain seedLoss (pairs.drop period)

/-- Maximum of a list, Python's `max` on a nonempty slice. -/
def listMax : List ℚ → ℚ
  | [] => 0
  | x :: xs => xs.foldl max x

/-- Minimum of a list, Python's `min` on a nonempty slice. -/
def listMin : List ℚ → ℚ
  | [] => 0
  | x :: xs => xs.foldl min x

/-- `indicators.stoch_kd`: %K over rolling high/low windows, %D as the
`d`-bar average of %K, with %K trimmed to the length of %D.  List reads
use a default of `0`, only reached where the Python slice bounds would
be out of range. -/
def stoch_kd (closes highs lows : List ℚ) (kPeriod dPeriod : ℕ) :
    List ℚ × List ℚ :=
  if closes.length < kPeriod then ([], [])
  else
    let kVals : List ℚ :=
      (List.range (closes.length - (kPeriod - 1))).map (fun j =>
        let i := kPeriod - 1 + j
        let wh := listMax ((highs.drop (i + 1 - kPeriod)).take kPeriod)
        let wl := listMin ((lows.drop (i + 1 - kPeriod)).take kPeriod)
        if wh - wl = 0 then 0 else 100 * (closes.getD i 0 - wl) / (wh - wl))
    let dVals : List ℚ :=
      (List.range (kVals.length - (dPeriod - 1))).map (fun j =>
        let i := dPeriod - 1 + j
        ((kVals.drop (i + 1 - dPeriod)).take dPeriod).sum / (dPeriod : ℚ))
    if dVals = [] then ([], dVals)
    else (kVals.drop (kVals.length - dVals.length), dVals)

/-- Running state of `indicators.parabolic_sar_series`: trend flag,
extreme point, acceleration factor. -/
structure PsarState where
  up : Bool
  ep : ℚ
  a : ℚ
  deriving Repr, DecidableEq

/-- One iteration of the SAR loop: from the previous SAR value and the
previous/current (high, low) pairs, the next SAR value and state, with
the acceleration factor reset on a direction flip. -/
def psarStep (af afMax : ℚ) (st : PsarState) (sPrev : ℚ)
    (hPrev lPrev hCur lCur : ℚ) : PsarState × ℚ :=
  let s := sPrev + st.a * (st.ep - sPrev)
  if st.up then
    let s := min s (min lPrev lCur)
    let ea :=
      if hCur > st.ep then (hCur, min afMax (st.a + af)) else (st.ep, st.a)
    if lCur < s then (⟨false, lCur, af⟩, max hPrev hCur)
    else (⟨true, ea.1, ea.2⟩, s)
  else
    let s := max s (max hPrev hCur)
    let ea :=
      if lCur < st.ep then (lCur, min afMax (st.a + af)) else (st.ep, st.a)
    if hCur > s then (⟨true, hCur, af⟩, min lPrev lCur)
    else (⟨false, ea.1, ea.2⟩, s)

/-- The SAR loop over consecutive (high, low) pairs, emitting the SAR
value of each step. -/
def psarLoop (af afMax : ℚ) (st : PsarState) (sPrev : ℚ) :
    List ((ℚ × ℚ) × (ℚ × ℚ)) → List ℚ
  | [] => []
  | (p, c) :: rest =>
    let r := psarStep af afMax st sPrev p.1 p.2 c.1 c.2
    r.2 :: psarLoop af afMax r.1 r.2 rest

/-- `indicators.parabolic_sar_series`: empty for fewer than five bars;
otherwise the seeded SAR sequence (initial direction from the first two
closes when available, else up). -/
def parabolic_sar_series (highs lows : List ℚ) (af afMax : ℚ)
    (closes : List ℚ) : List ℚ :=
  if highs.length < 5 then []
  else
    let up : Bool :=
      match closes with
      | c0 :: c1 :: _ => c1 ≥ c0
      | _ => true
    let ep := if up then highs.headD 0 else lows.headD 0
    let s0 := if up then lows.headD 0 else highs.headD 0
    let hl := highs.zip lows
    s0 :: psarLoop af afMax ⟨up, ep, af⟩ s0 (hl.zip hl.tail)

/-- A directional trade signal, the strings `"BUY"` / `"SELL"` of the
source. -/
inductive Dir where
  | buy
  | sell
  deriving Repr, DecidableEq

/-- `strategies.micro_momentum.momentum_direction` over the result of
its own `recent_prices` fetch: `none` input models a raised exception
(caught, giving the BUY default); with two bars available it compares
the last two close mids, falling back to BUY when a mid is missing
(the `float(None)` error is caught). -/
def momentum_direction (fetched : Option (List Bar)) : Dir :=
  match fetched with
  | none => .buy
  | some pr =>
    if 2 ≤ pr.length then
      match pr.getLast?, pr.dropLast.getLast? with
      | some bLast, some bPrev =>
        match quoteMid bLast.closePrice, quoteMid bPrev.closePrice with
        | some mLast, some mPrev => if mPrev ≤ mLast then .buy else .sell
        | _, _ => .buy
      | _, _ => .buy
    else .buy

/-- `strategies.moving_average.ma_direction` over the fetched bars:
fast/slow SMA cross gated by the slope of the trend SMA, no signal when
the extracted closes are shorter than `maTrend + maSlow + 1` or any SMA
is NaN. -/
def ma_direction (bars : List Bar) (maFast maSlow maTrend : ℕ) :
    Option Dir :=
  let closes := (extract_ohlc bars).1
  if closes.length < maTrend + maSlow + 1 then none
  else
    match sma closes maTrend, sma closes.dropLast maTrend,
        sma closes maFast, sma closes.dropLast maFast,
        sma closes maSlow, sma closes.dropLast maSlow with
    | some trendNow, some trendPrev, some fastNow, some fastPrev,
        some slowNow, some slowPrev =>
      let bullCross := fastPrev ≤ slowPrev ∧ fastNow > slowNow
      let bearCross := fastPrev ≥ slowPrev ∧ fastNow < slowNow
      if bullCross ∧ trendNow > trendPrev then some .buy
      else if bearCross ∧ trendNow < trendPrev then some .sell
      else none
    | _, _, _, _, _, _ => none

/-- A float comparison `a > b` under NaN semantics: false when either
side is NaN. -/
def optGT (a b : Option ℚ) : Prop :=
  match a, b with
  | some x, some y => x > y
  | _, _ => False

instance (a b : Option ℚ) : Decidable (optGT a b) := by
  rcases a with _ | x <;> rcases b with _ | y <;> simp [optGT] <;> infer_instance

/-- `strategies.stochastic.stochastic_direction` over the fetched bars:
%K/%D cross from beyond the band, gated by trend slope, no signal when
the extracted closes are shorter than `maTrend + kP + dP` or fewer than
two %K/%D values exist. -/
def stochastic_direction (bars : List Bar) (kP dP : ℕ) (kLo kHi : ℚ)
    (maTrend : ℕ) : Option Dir :=
  let ohlc := extract_ohlc bars
  let closes := ohlc.1
  let highs := ohlc.2.1
  let lows := ohlc.2.2
  if closes.length < maTrend + kP + dP then none
  else
    let trendUp := optGT (sma closes maTrend) (sma closes.dropLast maTrend)
    let trendDown := optGT (sma closes.dropLast maTrend) (sma closes maTrend)
    let kd := stoch_kd closes highs lows kP dP
    let kVals := kd.1
    let dVals := kd.2
    if kVals.length < 2 ∨ dVals.length < 2 then none
    else
      let kPrev := kVals.getD (kVals.length - 2) 0
      let kNow := kVals.getD (kVals.length - 1) 0
      let dPrev := dVals.getD (dVals.length - 2) 0
      let dNow := dVals.getD (dVals.length - 1) 0
      let bullCross := kPrev ≤ dPrev ∧ kNow > dNow ∧ kPrev < kLo
      let bearCross := kPrev ≥ dPrev ∧ kNow < dNow ∧ kPrev > kHi
      if bullCross ∧ trendUp then some .buy
      else if bearCross ∧ trendDown then some .sell
      else none

/-- `strategies.rsi.rsi_direction` over the fetched bars: RSI rebound
through the low band (long) or roll-off through the high band (short),
gated by trend slope, no signal when the extracted closes are shorter
than `maTrend + period + 1` or fewer than two RSI values exist. -/
def rsi_direction (bars : List Bar) (period : ℕ) (rsiLo rsiHi : ℚ)
    (maTrend : ℕ) : Option Dir :=
  let closes := (extract_ohlc bars).1
  if closes.length < maTrend + period + 1 then none
  else
    let trendUp := optGT (sma closes maTrend) (sma closes.dropLast maTrend)
    let trendDown := optGT (sma closes.dropLast maTrend) (sma closes maTrend)
    let rsis := rsi_series closes period
    if rsis.length < 2 then none
    else
      let rPrev := rsis.getD (rsis.length - 2) 0
      let rNow := rsis.getD (rsis.length - 1) 0
      if (rPrev ≤ rsiLo ∧ rNow > rsiLo) ∧ trendUp then some .buy
      else if (rPrev ≥ rsiHi ∧ rNow < rsiHi) ∧ trendDown then some .sell
      else none

/-- `strategies.parabolic_sar.psar_direction` over the fetched bars:
signal exactly on a close/SAR crossing. -/
def psar_direction (bars : List Bar) (af afMax : ℚ) : Option Dir :=
  let ohlc := extract_ohlc bars
  let closes := ohlc.1
  let highs := ohlc.2.1
  let lows := ohlc.2.2
  if highs.length < 5 then none
  else
    let sar := parabolic_sar_series highs lows af afMax closes
    if sar.length < 2 then none
    else
      let prevAbove := closes.getD (closes.length - 2) 0 > sar.getD (sar.length - 2) 0
      let nowAbove := closes.getD (closes.length - 1) 0 > sar.getD (sar.length - 1) 0
      if ¬prevAbove ∧ nowAbove then some .buy
      else if prevAbove ∧ ¬nowAbove then some .sell
      else none

/-- The configuration constants consumed by the strategy router
(`config.py` values). -/
structure StratConfig where
  scalpStrategy : String
  maFast : ℕ
  maSlow : ℕ
  maTrend : ℕ
  stoKP : ℕ
  stoDP : ℕ
  stoLo : ℚ
  stoHi : ℚ
  rsiPeriod : ℕ
  rsiLo : ℚ
  rsiHi : ℚ
  psarAf : ℚ
  psarAfMax : ℚ

/-- `strategies.choose_direction`: dispatch on the lowercased strategy
name.  `fetch n` is the broker's `recent_prices` response for `n` bars,
with `none` for a raised exception; only `micro_momentum` catches that
exception, for every other recognized variant it propagates
(`Except.error`).  An unrecognized name falls through to `ok none`
before any broker call. -/
def choose_direction (cfg : StratConfig) (fetch : ℕ → Option (List Bar))
    (strategy : Option String) : Except Unit (Option Dir) :=
  let s := strLower (pyOrStr strategy cfg.scalpStrategy)
  if s = "micro_momentum" then .ok (some (momentum_direction (fetch 3)))
  else if s = "moving_average" then
    match fetch (max (cfg.maTrend + cfg.maSlow + 2) 230) with
    | some bars => .ok (ma_direction bars cfg.maFast cfg.maSlow cfg.maTrend)
    | none => .error ()
  else if s = "stochastic" then
    match fetch (max (cfg.maTrend + cfg.stoKP + cfg.stoDP + 2) 230) with
    | some bars =>
      .ok (stochastic_direction bars cfg.stoKP cfg.stoDP cfg.stoLo cfg.stoHi
        cfg.maTrend)
    | none => .error ()
  else if s = "parabolic_sar" then
    match fetch 150 with
    | some bars => .ok (psar_direction bars cfg.psarAf cfg.psarAfMax)
    | none => .error ()
  else if s = "rsi" then
    match fetch (max (cfg.maTrend + cfg.rsiPeriod + 2) 230) with
    | some bars =>
      .ok (rsi_direction bars cfg.rsiPeriod cfg.rsiLo cfg.rsiHi cfg.maTrend)
    | none => .error ()
  else .ok none

/-- One entry of an instrument's `currencies` list. -/
structure CurrencyEntry where
  code : Option String
  isDefault : Bool
  deriving Repr, DecidableEq

/-- One entry of `marginDepositBands`; the `margin` percentage (a `none`
models a missing key, read with default `5.0`). -/
structure MarginBand where
  margin : Option ℚ
  deriving Repr, DecidableEq

/-- The `instrument` fields read by the sizer.  `onePipMeans` holds the
numeric value of the string's first whitespace token (`none` models a
missing or unparsable string, giving the 1.0 fallback of
`_points_per_pip`). -/
structure Instrument where
  onePipMeans : Option ℚ
  valueOfOnePip : Option ℚ
  currencies : List CurrencyEntry
  contractSize : Option ℚ
  marginDepositBands : List MarginBand
  marginFactor : Option ℚ
  deriving Repr, DecidableEq

/-- The `dealingRules` fields read by the sizer: each holds the nested
`value` entry, `none` for a missing dictionary or key. -/
structure DealingRules where
  minNormalStopOrLimitDistance : Option ℚ
  minDealSize : Option ℚ
  maxDealSize : Option ℚ
  deriving Repr, DecidableEq

/-- The `snapshot` price fields read by the sizer. -/
structure Snapshot where
  offer : Option ℚ
  bid : Option ℚ
  mid : Option ℚ
  deriving Repr, DecidableEq

/-- A `market_details` response, restricted to the fields the sizer
reads. -/
structure Details where
  instrument : Instrument
  dealingRules : DealingRules
  snapshot : Snapshot
  deriving Repr, DecidableEq

/-- `sizing._points_per_pip` on the parsed token. -/
def pointsPerPip (o : Option ℚ) : ℚ := o.getD 1

/-- The default-currency selection of `compute_size_and_distances`:
the code of the first entry flagged as default, else `"EUR"`. -/
def defaultCurrency (cs : List CurrencyEntry) : String :=
  match cs.find? (·.isDefault) with
  | some c => pyOrStr c.code "EUR"
  | none => "EUR"

/-- `sizing._first_margin_rate`: first margin band over 100 when bands
exist, else the `marginFactor` normalised to a fraction, else 5%.
(The source's `try`/`except` around unparsable values is subsumed by
the `Option` fields.) -/
def first_margin_rate (instr : Instrument) : ℚ :=
  match instr.marginDepositBands with
  | b :: _ => (b.margin.getD 5) / 100
  | [] =>
    match instr.marginFactor with
    | some mf => if 1 < mf then mf / 100 else if 0 < mf then mf else 1 / 20
    | none => 1 / 20

/-- The tuple returned by `sizing.compute_size_and_distances`. -/
structure SizingResult where
  size : ℚ
  tp : ℚ
  sl : ℚ
  currency : String
  feasible : Bool
  deriving Repr, DecidableEq

/-- The `1e-9` literal of `sizing.py`. -/
def eps9 : ℚ := 1 / 1000000000

/-- `sizing.compute_size_and_distances`, with the imported config
constant `STOP_TO_LIMIT_MULTIPLIER` passed as `stopToLimitMult`.
Returns `(size, limit_distance_points, stop_distance_points, currency,
ok_to_trade)`.  The source raises `ZeroDivisionError` when
`pip_value_eur * size` is zero; the embedding's total division returns
0 there, a path no theorem below relies on. -/
def compute_size_and_distances (d : Details) (targetEur workingCapital : ℚ)
    (effectiveLeverage marginUtilization stopToLimitMult : ℚ) :
    SizingResult :=
  let instr := d.instrument
  let rules := d.dealingRules
  let snap := d.snapshot
  let ppp := pointsPerPip instr.onePipMeans
  let pipValue := pyOr instr.valueOfOnePip 1
  let currency := defaultCurrency instr.currencies
  let minLimit := pyOr rules.minNormalStopOrLimitDistance (1 / 10)
  let minStop := pyOr rules.minNormalStopOrLimitDistance (1 / 10)
  let minSize := pyOr rules.minDealSize (1 / 10)
  let maxSize := pyOr rules.maxDealSize 1000000000
  let price := pyOr snap.offer (pyOr snap.bid (pyOr snap.mid 20000))
  let contractSize := pyOr instr.contractSize 1
  let marginRate := first_margin_rate instr
  let exposureCap := max 0 (workingCapital * effectiveLeverage)
  let marginCap := max 0 (workingCapital * marginUtilization)
  let sizeFromMargin :=
    if marginCap ≤ 0 then 0
    else
      let den := price * contractSize * marginRate
      if den ≤ 0 then 0 else marginCap / den
  let sizeFromExposure :=
    if exposureCap ≤ 0 then 0
    else
      let den := price * contractSize
      if den ≤ 0 then 0 else exposureCap / den
  let maxAffordableSize := max 0 (min sizeFromMargin (min sizeFromExposure maxSize))
  let minSizeMargin := price * minSize * contractSize * marginRate
  let minSizeExposure := price * minSize * contractSize
  if minSizeMargin > marginCap + eps9 ∨ minSizeExposure > exposureCap + eps9 then
    ⟨0, 0, 0, currency, false⟩
  else
    let size := min (max minSize maxAffordableSize) maxAffordableSize
    let pipsNeeded := max eps9 (targetEur / (pipValue * size))
    let pointsNeeded := pipsNeeded * ppp
    let limitDistance := max minLimit pointsNeeded
    let mult := max 1 stopToLimitMult
    let stopDistance := max minStop (limitDistance * mult)
    ⟨round2 size, round2 limitDistance, round2 stopDistance, currency, true⟩

/-- In-memory ledger state: `balance`, `day`, `day_start_balance`
(`ledger.Ledger`). -/
structure LedgerState where
  balance : ℚ
  day : String
  dayStart : ℚ
  deriving Repr, DecidableEq

/-- The persisted `state.json` contents; `none` fields model missing
keys of the parsed dictionary. -/
structure StoredState where
  balance : Option ℚ
  day : Option String
  dayStart : Option ℚ
  deriving Repr, DecidableEq

/-- `Ledger._flush_state`'s snapshot of the in-memory state. -/
def toStored (s : LedgerState) : StoredState :=
  ⟨some s.balance, some s.day, some s.dayStart⟩

/-- `Ledger._load_or_init_state`: `stored = none` models a missing or
corrupt state file (both reset to the defaults); then the new-day check
resets the day anchor to the current balance. -/
def load_or_init_state (stored : Option StoredState) (startDefault : ℚ)
    (today : String) : LedgerState :=
  let s0 : LedgerState :=
    match stored with
    | some st =>
      let bal := st.balance.getD startDefault
      ⟨bal, pyOrStr st.day today, st.dayStart.getD bal⟩
    | none => ⟨startDefault, today, startDefault⟩
  if s0.day ≠ today then ⟨s0.balance, today, s0.balance⟩ else s0

/-- `Ledger.record_trade` restricted to its state effect: add the
trade's `pnl_eur` (falsy values count as 0) to the balance. -/
def record_trade (s : LedgerState) (pnl : Option ℚ) : LedgerState :=
  ⟨s.balance + pyOr pnl 0, s.day, s.dayStart⟩

/-- `Ledger.day_net`. -/
def day_net (s : LedgerState) : ℚ := s.balance - s.dayStart

/-- A sequence of `record_trade` calls. -/
def applyTrades (s : LedgerState) (pnls : List (Option ℚ)) : LedgerState :=
  pnls.foldl record_trade s

/-- The configuration constants consumed by `risk.trade_manager`,
together with its per-trade arguments. -/
structure TMParams where
  isLong : Bool
  entry : ℚ
  tpPts : ℚ
  igMinStop : ℚ
  atrPeriod : ℕ
  emaPeriod : ℕ
  atrMinThreshold : ℚ
  spreadMaxPoints : ℚ
  beTrigger : ℚ
  beOffset : ℚ
  trailDistMult : ℚ
  trailStepMult : ℚ
  minTrailStep : ℚ
  deriving Repr, DecidableEq

/-- What the environment returns to one iteration of the
`trade_manager` poll loop:
* `listErr` — `list_positions` raised (caught; sleep and retry);
* `gone fetched` — the tracked deal is absent; `fetched` is the
  two-bar exit fetch, `none` for a raised exception;
* `here fetched amendOk` — the deal is present; `fetched` is the
  indicator-window fetch (`none` for a raised exception) and `amendOk`
  says whether an `update_position` call would succeed.  -/
inductive TMObs where
  | listErr
  | gone (fetched : Option (List Bar))
  | here (fetched : Option (List Bar)) (amendOk : Bool)
  deriving Repr, DecidableEq

/-- A broker instruction issued by the manager: the breakeven-plus-
trailing amendment (with its rounded distance, step and stop level) or
a close-at-market. -/
inductive TMAct where
  | amend (dist step level : ℚ)
  | close
  deriving Repr, DecidableEq

/-- One iteration of the `trade_manager` loop body: the instructions it
issues, the updated `trailing_activated` flag, and `some result` when
the function returns on this iteration. -/
def tmStep (p : TMParams) (trailing : Bool) (o : TMObs) :
    List TMAct × Bool × Option (Option ℚ × Option ℚ) :=
  match o with
  | .listErr => ([], trailing, none)
  | .gone fetched =>
    match fetched with
    | none => ([], trailing, some (none, none))
    | some bars =>
      match (latest_mid_and_spread bars).1 with
      | none => ([], trailing, some (none, none))
      | some m =>
        ([], trailing,
          some (some (if p.isLong then m - p.entry else p.entry - m), some m))
  | .here fetched amendOk =>
    match fetched with
    | none => ([], trailing, none)
    | some bars =>
      if bars.length = 0 then ([], trailing, none)
      else
        let atr := compute_atr_points bars p.atrPeriod
        let ema20 := ema_of_closes bars p.emaPeriod
        let ms := latest_mid_and_spread bars
        match ms.1, atr, ema20 with
        | some m, some a, some e =>
          let movePts := if p.isLong then m - p.entry else p.entry - m
          let amendPart : List TMAct × Bool :=
            if ¬trailing ∧ movePts ≥ p.tpPts * p.beTrigger then
              let dist := max (a * p.trailDistMult) p.igMinStop
              let stp := max (a * p.trailStepMult) p.minTrailStep
              let be := p.entry + (if p.isLong then p.beOffset else -p.beOffset)
              ([TMAct.amend (round2 dist) (round2 stp) (round2 be)],
                if amendOk then true else trailing)
            else ([], trailing)
          if (p.isLong ∧ m < e) ∨ (¬p.isLong ∧ m > e) then
            (amendPart.1 ++ [TMAct.close], amendPart.2, some (some movePts, some m))
          else if a < p.atrMinThreshold ∨ optGT ms.2 (some p.spreadMaxPoints) then
            (amendPart.1 ++ [TMAct.close], amendPart.2, some (some movePts, some m))
          else (amendPart.1, amendPart.2, none)
        | _, _, _ => ([], trailing, none)

/-- The trace of a `trade_manager` run: all broker instructions issued,
the returned `(approx_move_points, approx_exit_mid)` pair when the
function returned, and the final `trailing_activated` flag. -/
structure TMRun where
  acts : List TMAct
  result : Option (Option ℚ × Option ℚ)
  trailing : Bool
  deriving Repr, DecidableEq

/-- `risk.trade_manager` as a run over a sequence of poll observations:
iterate `tmStep`, stopping at the first iteration that returns. -/
def tmRun (p : TMParams) (trailing : Bool) : List TMObs → TMRun
  | [] => ⟨[], none, trailing⟩
  | o :: os =>
    let stp := tmStep p trailing o
    match stp.2.2 with
    | some r => ⟨stp.1, some r, stp.2.1⟩
    | none =>
      let rest := tmRun p stp.2.1 os
      ⟨stp.1 ++ rest.acts, rest.result, rest.trailing⟩

/-- Number of close instructions in a trace. -/
def countClose (acts : List TMAct) : ℕ :=
  acts.countP (fun a => match a with | .close => true | _ => false)

/-- Number of breakeven-plus-trailing amendments in a trace. -/
def countAmend (acts : List TMAct) : ℕ :=
  acts.countP (fun a => match a with | .amend _ _ _ => true | _ => false)

/-- The session loop's stop-condition parameters. -/
structure SessParams where
  dailyTarget : ℚ
  dailyMaxLoss : ℚ
  maxConsecLosses : ℕ
  deriving Repr, DecidableEq

/-- The session loop's per-iteration state: daily net P&L and the
consecutive-loss counter. -/
structure SessState where
  dayNet : ℚ
  consecLosses : ℕ
  deriving Repr, DecidableEq

/-- Modelled from the spec: the three stop conditions of §4.5, checked
before attempting a new trade — daily net ≥ daily profit target,
daily net ≤ − daily max loss, consecutive losses ≥ configured
maximum.  (The modular orchestrator that wires Ledger, session gate,
sizing, strategies and trade manager together is not among the files
under src/; src/main.py is an earlier monolithic loop without the
loss guards.) -/
def stopCheck (p : SessParams) (s : SessState) : Prop :=
  s.dayNet ≥ p.dailyTarget ∨ s.dayNet ≤ -p.dailyMaxLoss ∨
    p.maxConsecLosses ≤ s.consecLosses

instance (p : SessParams) (s : SessState) : Decidable (stopCheck p s) := by
  unfold stopCheck
  infer_instance

/-- One orchestrator iteration outcome: a skipped iteration (session
window, entry gate, no signal, failed submission) or a completed trade
with its realized P&L. -/
inductive SessEvent where
  | skip
  | trade (pnl : ℚ)
  deriving Repr, DecidableEq

/-- Modelled from the spec: the session loop of §4.5 over a sequence of
iteration outcomes.  Before every iteration the stop conditions are
checked; a completed trade adds its P&L to the daily net and resets the
consecutive-loss counter on P&L > 0 and increments it otherwise (a
zero-P&L trade counts as a loss).  Returns the final state and the
number of trades attempted. -/
def sessionRun (p : SessParams) (s : SessState) :
    List SessEvent → SessState × ℕ
  | [] => (s, 0)
  | e :: es =>
    if stopCheck p s then (s, 0)
    else
      match e with
      | .skip => sessionRun p s es
      | .trade pnl =>
        let s' : SessState :=
          ⟨s.dayNet + pnl, if 0 < pnl then 0 else s.consecLosses + 1⟩
        let r := sessionRun p s' es
        (r.1, r.2 + 1)

/-- The sizer's effective broker minimum stop/limit distance
(`min_limit` = `min_stop` in the source). -/
def minLimitOf (d : Details) : ℚ :=
  pyOr d.dealingRules.minNormalStopOrLimitDistance (1 / 10)

/-- The sizer's effective broker minimum deal size. -/
def minSizeOf (d : Details) : ℚ := pyOr d.dealingRules.minDealSize (1 / 10)

/-- The sizer's effective broker maximum deal size. -/
def maxSizeOf (d : Details) : ℚ := pyOr d.dealingRules.maxDealSize 1000000000

/-- The sizer's reference price (offer, then bid, then mid, then the
20000 fallback). -/
def priceOf (d : Details) : ℚ :=
  pyOr d.snapshot.offer (pyOr d.snapshot.bid (pyOr d.snapshot.mid 20000))

/-- The sizer's effective contract size. -/
def contractSizeOf (d : Details) : ℚ := pyOr d.instrument.contractSize 1

/-- `_estimate_margin` at the broker minimum size (the quantity the
infeasibility check compares against the margin cap). -/
def minSizeMarginOf (d : Details) : ℚ :=
  priceOf d * minSizeOf d * contractSizeOf d * first_margin_rate d.instrument

/-- `_estimate_exposure` at the broker minimum size. -/
def minSizeExposureOf (d : Details) : ℚ :=
  priceOf d * minSizeOf d * contractSizeOf d

/-- The sizer's margin cap, `working capital × margin utilization`
clamped at zero. -/
def marginCapOf (workingCapital marginUtilization : ℚ) : ℚ :=
  max 0 (workingCapital * marginUtilization)

/-- The sizer's exposure cap, `working capital × effective leverage`
clamped at zero. -/
def exposureCapOf (workingCapital effectiveLeverage : ℚ) : ℚ :=
  max 0 (workingCapital * effectiveLeverage)

/-- Total recorded P&L of a `record_trade` call sequence (falsy
`pnl_eur` values count as 0, as in the source). -/
def sumPnl (pnls : List (Option ℚ)) : ℚ := (pnls.map (pyOr · 0)).sum

/-- Modelled from the spec: one Wilder-smoothing update,
`(avg × (period − 1) + x) / period` — "recursive average using
period-weighted update". -/
def wilderNext (period : ℕ) (avg x : ℚ) : ℚ :=
  (avg * ((period : ℚ) - 1) + x) / (period : ℚ)

/-- Modelled from the spec: the stream of successive Wilder-smoothed
averages from a seed. -/
def wilderStream (period : ℕ) (avg : ℚ) : List ℚ → List ℚ
  | [] => []
  | x :: xs =>
    let a := wilderNext period avg x
    a :: wilderStream period a xs

/-- Modelled from the spec: a Wilder-smoothed ATR — seed with the
simple average of the first `period` true ranges, then apply the
recursive period-weighted update at every later step and return the
final running average (never a fresh simple average over the last
`period` values). -/
def atrWilder (bars : List Bar) (period : ℕ) : Option ℚ :=
  if bars.length < period + 1 then none
  else
    match bars with
    | [] => none
    | b0 :: rest =>
      let trs := trLoop (quoteMid b0.closePrice) rest
      if trs.length < period then none
      else
        let seed := (trs.take period).sum / (period : ℚ)
        some ((wilderStream period seed (trs.drop period)).getLastD seed)

/-- The RSI value from a smoothed gain/loss pair (RS = ∞ at zero loss,
hence RSI = 100). -/
def rsiOfAvgs (g l : ℚ) : ℚ := if l = 0 then 100 else 100 - 100 / (1 + g / l)

/-- Modelled from the spec: the RSI series with Wilder smoothing — the
gain and loss averages are each seeded over the first `period` steps
and then advanced by the recursive period-weighted update, one RSI
value per later step. -/
def rsiWilder (closes : List ℚ) (period : ℕ) : List ℚ :=
  if closes.length < period + 1 then []
  else
    let pairs := gainLossPairs closes
    let seedGain := ((pairs.take period).map Prod.fst).sum / (period : ℚ)
    let seedLoss := ((pairs.take period).map Prod.snd).sum / (period : ℚ)
    List.zipWith rsiOfAvgs
      (wilderStream period seedGain ((pairs.drop period).map Prod.fst))
      (wilderStream period seedLoss ((pairs.drop period).map Prod.snd))

/-- The four-bar window of the ATR smoothing comparison: true ranges
2, 4, 8 with period 2. -/
def atrCexBars : List Bar :=
  [⟨midOnly 10, midOnly 10, midOnly 10⟩,
   ⟨midOnly 11, midOnly 12, midOnly 10⟩,
   ⟨midOnly 12, midOnly 14, midOnly 10⟩,
   ⟨midOnly 16, midOnly 20, midOnly 12⟩]

/-- A market whose minimum-size margin (1 + 5·10⁻¹⁰) exceeds the margin
cap (1) by less than the source's 1e-9 tolerance: price 1, contract
size 1, margin rate 1, minimum deal size 1 + 5·10⁻¹⁰. -/
def tolCexDetails : Details :=
  { instrument :=
    { onePipMeans := some 1, valueOfOnePip := some 1, currencies := [],
      contractSize := some 1, marginDepositBands := [], marginFactor := some 1 },
    dealingRules :=
    { minNormalStopOrLimitDistance := none,
      minDealSize := some (1 + 1 / 2000000000), maxDealSize := none },
    snapshot := { offer := some 1, bid := none, mid := none } }

/-- A market whose broker maximum deal size (0.2) lies below its
minimum deal size (0.5), with a broker minimum distance of 0.124:
price 10, contract size 1, margin rate 0.1. -/
def maxCexDetails : Details :=
  { instrument :=
    { onePipMeans := some 1, valueOfOnePip := some 1, currencies := [],
      contractSize := some 1, marginDepositBands := [],
      marginFactor := some (1 / 10) },
    dealingRules :=
    { minNormalStopOrLimitDistance := some (31 / 250),
      minDealSize := some (1 / 2), maxDealSize := some (1 / 5) },
    snapshot := { offer := some 10, bid := none, mid := none } }

/-- A clearly infeasible market: minimum deal size 10 at price 10,
margin rate 1, against working capital 1. -/
def infeasDetails : Details :=
  { instrument :=
    { onePipMeans := some 1, valueOfOnePip := some 1, currencies := [],
      contractSize := some 1, marginDepositBands := [], marginFactor := some 1 },
    dealingRules :=
    { minNormalStopOrLimitDistance := none,
      minDealSize := some 10, maxDealSize := none },
    snapshot := { offer := some 10, bid := none, mid := none } }

/-- A comfortably feasible market: minimum size 0.5, maximum 10⁹,
minimum distance 1, price 10, contract size 1, margin rate 0.1. -/
def feasDetails : Details :=
  { instrument :=
    { onePipMeans := some 1, valueOfOnePip := some 1, currencies := [],
      contractSize := some 1, marginDepositBands := [],
      marginFactor := some (1 / 10) },
    dealingRules :=
    { minNormalStopOrLimitDistance := some 1,
      minDealSize := some (1 / 2), maxDealSize := none },
    snapshot := { offer := some 10, bid := none, mid := none } }

/-- The breakeven scenario's trade-manager parameters: long, entry 100,
take-profit 10 points, breakeven trigger ratio 0.5, ATR period 2. -/
def beParams : TMParams :=
  { isLong := true, entry := 100, tpPts := 10, igMinStop := 1,
    atrPeriod := 2, emaPeriod := 20, atrMinThreshold := 1,
    spreadMaxPoints := 3, beTrigger := 1 / 2, beOffset := 1 / 10,
    trailDistMult := 4 / 5, trailStepMult := 3 / 10, minTrailStep := 1 / 10 }

/-- A poll observation at price 105 for the breakeven scenario: the
position is present, the window gives ATR 2, EMA below price, no
invalidation or deterioration, and the amendment succeeds. -/
def beObs : TMObs :=
  TMObs.here
    (some
      [⟨midOnly 103, midOnly 104, midOnly 102⟩,
       ⟨midOnly 104, midOnly 105, midOnly 103⟩,
       ⟨midOnly 105, midOnly 106, midOnly 104⟩]) true

/-- A poll observation reporting the tracked position absent, with an
exit-fetch window whose last mid is 105. -/
def goneObs : TMObs :=
  TMObs.gone (some [⟨midOnly 105, midOnly 105, midOnly 105⟩])

/-- A strategy configuration with the source defaults. -/
def defaultCfg : StratConfig :=
  ⟨"micro_momentum", 5, 20, 200, 14, 3, 20, 80, 14, 30, 70, 1 / 50, 1 / 5⟩

/-- C10: for every strategy name whose lowercasing is none of the five
recognized names (micro_momentum, moving_average, stochastic,
parabolic_sar, rsi), `choose_direction` falls through every dispatch
branch and returns no signal for every market input, raising no
error. -/
theorem choose_direction_unknown_none (cfg : StratConfig)
    (fetch : ℕ → Option (List Bar)) (strategy : Option String)
    (h1 : strLower (pyOrStr strategy cfg.scalpStrategy) ≠ "micro_momentum")
    (h2 : strLower (pyOrStr strategy cfg.scalpStrategy) ≠ "moving_average")
    (h3 : strLower (pyOrStr strategy cfg.scalpStrategy) ≠ "stochastic")
    (h4 : strLower (pyOrStr strategy cfg.scalpStrategy) ≠ "parabolic_sar")
    (h5 : strLower (pyOrStr strategy cfg.scalpStrategy) ≠ "rsi") :
    choose_direction cfg fetch strategy = .ok none := by
  simp [choose_direction, h1, h2, h3, h4, h5]

/-- Witness: the unrecognized name `"macd"` yields no signal under the
default configuration, whatever the market data. -/
theorem choose_direction_unknown_none_witness :
    choose_direction defaultCfg (fun _ => none) (some "macd") = .ok none :=
  choose_direction_unknown_none defaultCfg (fun _ => none) (some "macd")
    (by decide) (by decide) (by decide) (by decide) (by decide)

/-- C9: `momentum_direction` compares the mids of the last two bars of
the fetched window, returning BUY when the later close is at least the
earlier one and SELL otherwise; with fewer than two bars, or with no
data at all (a raised fetch), it returns the fixed BUY default. -/
theorem momentum_direction_spec (pr : List Bar) :
    momentum_direction none = .buy ∧
    (pr.length < 2 → momentum_direction (some pr) = .buy) ∧
    (∀ bLast bPrev mLast mPrev,
      pr.getLast? = some bLast →
      pr.dropLast.getLast? = some bPrev →
      quoteMid bLast.closePrice = some mLast →
      quoteMid bPrev.closePrice = some mPrev →
      momentum_direction (some pr) =
        if mPrev ≤ mLast then .buy else .sell) := by
  refine ⟨rfl, ?_, ?_⟩
  · intro h
    rw [momentum_direction, if_neg (by omega)]
  · intro bLast bPrev mLast mPrev hLast hPrev hmL hmP
    have hlen : 2 ≤ pr.length := by
      rcases pr with _ | ⟨a, _ | ⟨b, l⟩⟩
      · simp at hLast
      · simp at hPrev
      · simp only [List.length_cons]
        omega
    simp only [momentum_direction, if_pos hlen, hLast, hPrev, hmL, hmP]

/-- Witness: a two-bar rising window yields BUY through the comparison
branch. -/
theorem momentum_direction_spec_witness :
    momentum_direction
      (some [⟨midOnly 1, midOnly 1, midOnly 1⟩, ⟨midOnly 2, midOnly 2, midOnly 2⟩]) =
      if (1 : ℚ) ≤ 2 then .buy else .sell :=
  (momentum_direction_spec
      [⟨midOnly 1, midOnly 1, midOnly 1⟩, ⟨midOnly 2, midOnly 2, midOnly 2⟩]).2.2
    ⟨midOnly 2, midOnly 2, midOnly 2⟩ ⟨midOnly 1, midOnly 1, midOnly 1⟩ 2 1
    rfl rfl rfl rfl

/-- C7: each trend-gated strategy returns no signal whenever the
extracted close series is shorter than its required lookback —
`maTrend + maSlow + 1` for the moving-average cross,
`maTrend + kP + dP` for the stochastic, `maTrend + period + 1` for the
RSI variant. -/
theorem strategies_insufficient_lookback_no_signal (bars : List Bar)
    (maFast maSlow maTrend kP dP period : ℕ) (kLo kHi rsiLo rsiHi : ℚ) :
    ((extract_ohlc bars).1.length < maTrend + maSlow + 1 →
      ma_direction bars maFast maSlow maTrend = none) ∧
    ((extract_ohlc bars).1.length < maTrend + kP + dP →
      stochastic_direction bars kP dP kLo kHi maTrend = none) ∧
    ((extract_ohlc bars).1.length < maTrend + period + 1 →
      rsi_direction bars period rsiLo rsiHi maTrend = none) := by
  refine ⟨fun h => ?_, fun h => ?_, fun h => ?_⟩
  · rw [ma_direction, if_pos h]
  · rw [stochastic_direction, if_pos h]
  · rw [rsi_direction, if_pos h]

/-- Witness: an empty window gives no signal from any of the three
trend-gated variants at the default parameters. -/
theorem strategies_insufficient_lookback_no_signal_witness :
    ma_direction [] 5 20 200 = none ∧
    stochastic_direction [] 14 3 20 80 200 = none ∧
    rsi_direction [] 14 30 70 200 = none :=
  ⟨(strategies_insufficient_lookback_no_signal [] 5 20 200 14 3 14 20 80 30 70).1
      (by decide),
   (strategies_insufficient_lookback_no_signal [] 5 20 200 14 3 14 20 80 30 70).2.1
      (by decide),
   (strategies_insufficient_lookback_no_signal [] 5 20 200 14 3 14 20 80 30 70).2.2
      (by decide)⟩

/-- A `record_trade` sequence only adds the recorded P&L amounts to the
balance, leaving the day anchor and day untouched. -/
theorem applyTrades_eq (pnls : List (Option ℚ)) :
    ∀ s : LedgerState,
      applyTrades s pnls = ⟨s.balance + sumPnl pnls, s.day, s.dayStart⟩ := by
  induction pnls with
  | nil => intro s; simp [applyTrades, sumPnl]
  | cons p ps ih =>
    intro s
    simp only [applyTrades, List.foldl_cons] at *
    rw [ih]
    simp [record_trade, sumPnl]
    ring

/-- C4: over any sequence of `record_trade` calls from a fresh ledger,
the balance is the starting balance plus all recorded P&L and
`day_net` is exactly that sum; reloading the persisted state on a new
calendar day resets the day anchor to the current balance, so after the
rollover `day_net` is the sum of the new day's P&L only while the
balance keeps accumulating. -/
theorem ledger_day_net_invariant (b0 : ℚ) (d1 d2 : String)
    (ps1 ps2 : List (Option ℚ)) (hne : d1 ≠ "") (hd : d1 ≠ d2) :
    (applyTrades (load_or_init_state none b0 d1) ps1).balance = b0 + sumPnl ps1 ∧
    day_net (applyTrades (load_or_init_state none b0 d1) ps1) = sumPnl ps1 ∧
    (applyTrades (load_or_init_state
        (some (toStored (applyTrades (load_or_init_state none b0 d1) ps1))) b0 d2)
        ps2).dayStart = b0 + sumPnl ps1 ∧
    (applyTrades (load_or_init_state
        (some (toStored (applyTrades (load_or_init_state none b0 d1) ps1))) b0 d2)
        ps2).balance = b0 + sumPnl ps1 + sumPnl ps2 ∧
    day_net (applyTrades (load_or_init_state
        (some (toStored (applyTrades (load_or_init_state none b0 d1) ps1))) b0 d2)
        ps2) = sumPnl ps2 := by
  have hload1 : load_or_init_state none b0 d1 = ⟨b0, d1, b0⟩ := by
    simp [load_or_init_state]
  have hs1 : applyTrades (load_or_init_state none b0 d1) ps1 =
      ⟨b0 + sumPnl ps1, d1, b0⟩ := by
    rw [hload1, applyTrades_eq]
  have hload2 : load_or_init_state
      (some (toStored (⟨b0 + sumPnl ps1, d1, b0⟩ : LedgerState))) b0 d2 =
      ⟨b0 + sumPnl ps1, d2, b0 + sumPnl ps1⟩ := by
    simp [load_or_init_state, toStored, pyOrStr, hne, hd]
  rw [hs1, hload2, applyTrades_eq]
  refine ⟨rfl, ?_, rfl, rfl, ?_⟩ <;> simp [day_net]

/-- Witness: concrete two-day run — balance 500, day one trades +3 and
a falsy P&L, day two trade −2. -/
theorem ledger_day_net_invariant_witness :
    (applyTrades (load_or_init_state none 500 "2025-01-01")
      [some 3, none]).balance = 500 + sumPnl [some 3, none] ∧
    day_net (applyTrades (load_or_init_state none 500 "2025-01-01")
      [some 3, none]) = sumPnl [some 3, none] ∧
    (applyTrades (load_or_init_state
        (some (toStored (applyTrades (load_or_init_state none 500 "2025-01-01")
          [some 3, none]))) 500 "2025-01-02")
        [some (-2)]).dayStart = 500 + sumPnl [some 3, none] ∧
    (applyTrades (load_or_init_state
        (some (toStored (applyTrades (load_or_init_state none 500 "2025-01-01")
          [some 3, none]))) 500 "2025-01-02")
        [some (-2)]).balance = 500 + sumPnl [some 3, none] + sumPnl [some (-2)] ∧
    day_net (applyTrades (load_or_init_state
        (some (toStored (applyTrades (load_or_init_state none 500 "2025-01-01")
          [some 3, none]))) 500 "2025-01-02")
        [some (-2)]) = sumPnl [some (-2)] :=
  ledger_day_net_invariant 500 "2025-01-01" "2025-01-02" [some 3, none]
    [some (-2)] (by decide) (by decide)

/-- From any state, the session loop attempts at most
`maxConsecLosses − consecLosses` trades when every completed trade
loses. -/
theorem sessionRun_attempts_bound (p : SessParams) :
    ∀ (es : List SessEvent) (s : SessState),
      (∀ q, SessEvent.trade q ∈ es → q ≤ 0) →
      (sessionRun p s es).2 ≤ p.maxConsecLosses - s.consecLosses := by
  intro es
  induction es with
  | nil => intro s _; simp [sessionRun]
  | cons e es ih =>
    intro s hlosses
    by_cases hstop : stopCheck p s
    · simp [sessionRun, hstop]
    · have hlt : s.consecLosses < p.maxConsecLosses := by
        by_contra hge
        exact hstop (Or.inr (Or.inr (Nat.le_of_not_lt hge)))
      have htail : ∀ q, SessEvent.trade q ∈ es → q ≤ 0 :=
        fun q hq => hlosses q (List.mem_cons_of_mem _ hq)
      rcases e with _ | q
      · simp only [sessionRun, if_neg hstop]
        have := ih s htail
        omega
      · have hq : q ≤ 0 := hlosses q (List.mem_cons_self _ _)
        simp only [sessionRun, if_neg hstop, if_neg (not_lt.mpr hq)]
        have := ih ⟨s.dayNet + q, s.consecLosses + 1⟩ htail
        simp only at this
        omega

/-- C1: with the maximum consecutive losses configured at 3 and every
completed trade realizing P&L ≤ 0, the session loop attempts at most
three trades — it stops before a fourth; and from any state already
meeting a stop condition (daily target reached, daily max loss hit, or
consecutive losses at the maximum), the loop attempts no trade at all,
i.e. the three stop conditions are checked before every new attempt. -/
theorem session_loop_stops_on_consecutive_losses (p : SessParams)
    (es : List SessEvent) (hm : p.maxConsecLosses = 3)
    (hlosses : ∀ q, SessEvent.trade q ∈ es → q ≤ 0) :
    (sessionRun p ⟨0, 0⟩ es).2 ≤ 3 ∧
    ∀ (s : SessState) (es2 : List SessEvent), stopCheck p s →
      sessionRun p s es2 = (s, 0) := by
  constructor
  · have := sessionRun_attempts_bound p es ⟨0, 0⟩ hlosses
    simp only [hm] at this
    omega
  · intro s es2 hstop
    cases es2 with
    | nil => rfl
    | cons e es2 => simp [sessionRun, hstop]

/-- Witness: four consecutive losing trades under
`maxConsecLosses = 3` yield at most three attempts, and a state at the
daily target triggers an immediate stop. -/
theorem session_loop_stops_on_consecutive_losses_witness :
    (sessionRun ⟨10, 100, 3⟩ ⟨0, 0⟩
      [SessEvent.trade (-1), SessEvent.trade (-1), SessEvent.trade (-1),
        SessEvent.trade (-1)]).2 ≤ 3 ∧
    sessionRun ⟨10, 100, 3⟩ ⟨10, 0⟩ [SessEvent.skip] = (⟨10, 0⟩, 0) :=
  have h := session_loop_stops_on_consecutive_losses ⟨10, 100, 3⟩
    [SessEvent.trade (-1), SessEvent.trade (-1), SessEvent.trade (-1),
      SessEvent.trade (-1)] rfl
    (by
      intro q hq
      simp only [List.mem_cons, List.not_mem_nil, or_false,
        SessEvent.trade.injEq] at hq
      rcases hq with h | h | h | h <;> rw [h] <;> norm_num)
  ⟨h.1, h.2 ⟨10, 0⟩ [SessEvent.skip] (Or.inl le_rfl)⟩

theorem countClose_nil : countClose [] = 0 := rfl

theorem countClose_append (a b : List TMAct) :
    countClose (a ++ b) = countClose a + countClose b :=
  List.countP_append _ _ _

theorem countClose_amend (d s l : ℚ) (rest : List TMAct) :
    countClose (TMAct.amend d s l :: rest) = countClose rest := by
  simp [countClose, List.countP_cons]

theorem countClose_close (rest : List TMAct) :
    countClose (TMAct.close :: rest) = countClose rest + 1 := by
  simp [countClose, List.countP_cons]

theorem countAmend_nil : countAmend [] = 0 := rfl

theorem countAmend_append (a b : List TMAct) :
    countAmend (a ++ b) = countAmend a + countAmend b :=
  List.countP_append _ _ _

theorem countAmend_amend (d s l : ℚ) (rest : List TMAct) :
    countAmend (TMAct.amend d s l :: rest) = countAmend rest + 1 := by
  simp [countAmend, List.countP_cons]

theorem countAmend_close (rest : List TMAct) :
    countAmend (TMAct.close :: rest) = countAmend rest := by
  simp [countAmend, List.countP_cons]

/-- One poll iteration issues no close instruction when it continues,
and never more than one close instruction in any case. -/
theorem tmStep_shape (p : TMParams) (t : Bool) (o : TMObs) :
    ((tmStep p t o).2.2 = none → countClose (tmStep p t o).1 = 0) ∧
    countClose (tmStep p t o).1 ≤ 1 := by
  cases o with
  | listErr => simp [tmStep, countClose]
  | gone f =>
    rcases f with _ | bars
    · simp [tmStep, countClose]
    · rcases hm : (latest_mid_and_spread bars).1 with _ | m <;>
        simp [tmStep, hm, countClose]
  | here f ok =>
    rcases f with _ | bars
    · simp [tmStep, countClose]
    · by_cases hb : bars.length = 0
      · simp [tmStep, hb, countClose]
      · simp only [tmStep]
        rw [if_neg hb]
        rcases h1 : (latest_mid_and_spread bars).1 with _ | m <;>
          rcases h2 : compute_atr_points bars p.atrPeriod with _ | a <;>
          rcases h3 : ema_of_closes bars p.emaPeriod with _ | e <;>
          simp only [h1, h2, h3] <;>
          try simp [countClose]
        split_ifs <;>
          simp [countClose_append, countClose_amend, countClose_close,
            countClose_nil]

/-- With trailing already active, a poll iteration keeps it active and
issues no further breakeven amendment. -/
theorem tmStep_trailing_shape (p : TMParams) (o : TMObs) :
    (tmStep p true o).2.1 = true ∧ countAmend (tmStep p true o).1 = 0 := by
  cases o with
  | listErr => simp [tmStep, countAmend]
  | gone f =>
    rcases f with _ | bars
    · simp [tmStep, countAmend]
    · rcases hm : (latest_mid_and_spread bars).1 with _ | m <;>
        simp [tmStep, hm, countAmend]
  | here f ok =>
    rcases f with _ | bars
    · simp [tmStep, countAmend]
    · by_cases hb : bars.length = 0
      · simp [tmStep, hb, countAmend]
      · simp only [tmStep]
        rw [if_neg hb]
        rcases h1 : (latest_mid_and_spread bars).1 with _ | m <;>
          rcases h2 : compute_atr_points bars p.atrPeriod with _ | a <;>
          rcases h3 : ema_of_closes bars p.emaPeriod with _ | e <;>
          simp only [h1, h2, h3] <;>
          try simp [countAmend]
        split_ifs <;>
          simp [countAmend_append, countAmend_amend, countAmend_close,
            countAmend_nil]

/-- A whole `trade_manager` run issues at most one close instruction. -/
theorem tmRun_close_le_one (p : TMParams) :
    ∀ (os : List TMObs) (t : Bool), countClose (tmRun p t os).acts ≤ 1 := by
  intro os
  induction os with
  | nil => intro t; simp [tmRun, countClose]
  | cons o os ih =>
    intro t
    rcases hres : (tmStep p t o).2.2 with _ | r
    · simp only [tmRun, hres]
      rw [countClose_append, (tmStep_shape p t o).1 hres]
      simpa using ih (tmStep p t o).2.1
    · simp only [tmRun, hres]
      exact (tmStep_shape p t o).2

/-- Once a run has returned a result on some prefix of the
observations, feeding further observations changes nothing. -/
theorem tmRun_stable (p : TMParams) :
    ∀ (os : List TMObs) (t : Bool) (os2 : List TMObs)
      (r : Option ℚ × Option ℚ),
      (tmRun p t os).result = some r → tmRun p t (os ++ os2) = tmRun p t os := by
  intro os
  induction os with
  | nil => intro t os2 r h; simp [tmRun] at h
  | cons o os ih =>
    intro t os2 r h
    rw [List.cons_append]
    rcases hres : (tmStep p t o).2.2 with _ | r'
    · simp only [tmRun, hres] at h ⊢
      rw [ih _ os2 r h]
    · simp only [tmRun, hres]

/-- C5: for every observation sequence, the trade manager issues at
most one close instruction; and once a run has returned its
decision-time point-move and price, any further poll observations leave
the run unchanged — the closed state is terminal. -/
theorem trade_manager_single_close (p : TMParams) (t : Bool)
    (os : List TMObs) :
    countClose (tmRun p t os).acts ≤ 1 ∧
    ∀ (os2 : List TMObs) (r : Option ℚ × Option ℚ),
      (tmRun p t os).result = some r →
      tmRun p t (os ++ os2) = tmRun p t os :=
  ⟨tmRun_close_le_one p os t, fun os2 r h => tmRun_stable p os t os2 r h⟩

/-- Witness: a run that observes the position gone at mid 105 returns
`(5, 105)` for entry 100 and is unchanged by a further poll. -/
theorem trade_manager_single_close_witness :
    countClose (tmRun beParams false [goneObs]).acts ≤ 1 ∧
    tmRun beParams false ([goneObs] ++ [TMObs.listErr]) =
      tmRun beParams false [goneObs] :=
  ⟨(trade_manager_single_close beParams false [goneObs]).1,
   (trade_manager_single_close beParams false [goneObs]).2 [TMObs.listErr]
     (some 5, some 105)
     (by norm_num [tmRun, tmStep, goneObs, beParams, latest_mid_and_spread,
       midOnly])⟩

/-- With trailing already active, a whole run keeps it active and never
issues another breakeven amendment. -/
theorem tmRun_true_no_amend (p : TMParams) :
    ∀ os : List TMObs,
      (tmRun p true os).trailing = true ∧
      countAmend (tmRun p true os).acts = 0 := by
  intro os
  induction os with
  | nil => simp [tmRun, countAmend]
  | cons o os ih =>
    rcases hres : (tmStep p true o).2.2 with _ | r
    · simp only [tmRun, hres]
      rw [(tmStep_trailing_shape p o).1]
      refine ⟨ih.1, ?_⟩
      rw [countAmend_append, (tmStep_trailing_shape p o).2, ih.2]
    · simp only [tmRun, hres]
      exact ⟨(tmStep_trailing_shape p o).1, (tmStep_trailing_shape p o).2⟩

/-- The breakeven-scenario poll at price 105 issues exactly the one
amendment and activates trailing, continuing the run. -/
theorem tmStep_beObs :
    tmStep beParams false beObs =
      ([TMAct.amend (8 / 5) (3 / 5) (1001 / 10)], true, none) := by
  norm_num [tmStep, beParams, beObs, compute_atr_points, ema_of_closes, ema,
    extract_ohlc, quoteMid, midOnly, trLoop, latest_mid_and_spread, round2,
    roundHalfEven, optGT]

/-- C6: in the scenario long trade with entry 100, take-profit distance
10 and breakeven trigger ratio 0.5, a poll at price 105 issues exactly
one breakeven-plus-trailing amendment, and no continuation of the run
ever issues another; in general, once trailing is active it stays
active for the remainder of any run and no further amendment is ever
issued. -/
theorem trade_manager_breakeven_once :
    (∀ os : List TMObs,
      countAmend (tmRun beParams false (beObs :: os)).acts = 1) ∧
    (∀ (p : TMParams) (os : List TMObs),
      (tmRun p true os).trailing = true ∧
      countAmend (tmRun p true os).acts = 0) := by
  constructor
  · intro os
    simp only [tmRun, tmStep_beObs]
    rw [countAmend_append, countAmend_amend, countAmend_nil,
      (tmRun_true_no_amend beParams os).2]
  · exact fun p os => tmRun_true_no_amend p os

/-- The RSI smoothing loop is exactly the zip of the two Wilder-update
streams through the RSI formula. -/
theorem rsiLoop_eq_wilder (period : ℕ) :
    ∀ (ps : List (ℚ × ℚ)) (ag al : ℚ),
      rsiLoop period ag al ps =
        List.zipWith rsiOfAvgs (wilderStream period ag (ps.map Prod.fst))
          (wilderStream period al (ps.map Prod.snd))
  | [], _, _ => rfl
  | (g, l) :: rest, ag, al => by
    simp only [rsiLoop, wilderStream, wilderNext, rsiOfAvgs, List.map_cons,
      List.zipWith_cons_cons, List.cons.injEq]
    exact ⟨trivial, rsiLoop_eq_wilder period rest _ _⟩

/-- C8 counterexample: on the four-bar window with true ranges 2, 4, 8
and period 2, `compute_atr_points` returns the fresh simple average
(4 + 8) / 2 = 6 of the last two true ranges, while the Wilder-smoothed
recursion seeded on the first two true ranges yields
((2 + 4) / 2 × 1 + 8) / 2 = 11/2 — so the ATR computation does not use
Wilder-style smoothing. -/
theorem atr_not_wilder_cex :
    compute_atr_points atrCexBars 2 = some 6 ∧
    atrWilder atrCexBars 2 = some (11 / 2) ∧
    compute_atr_points atrCexBars 2 ≠ atrWilder atrCexBars 2 := by
  have h1 : compute_atr_points atrCexBars 2 = some 6 := by
    norm_num [compute_atr_points, atrCexBars, trLoop, quoteMid, midOnly]
  have h2 : atrWilder atrCexBars 2 = some (11 / 2) := by
    norm_num [atrWilder, atrCexBars, trLoop, quoteMid, midOnly, wilderStream,
      wilderNext]
  refine ⟨h1, h2, ?_⟩
  rw [h1, h2]
  norm_num

/-- C8 as amended: once the seed window is established the RSI
computation advances by the Wilder period-weighted recursive update —
`rsi_series` coincides with the Wilder-reference `rsiWilder` on every
input — whereas the ATR computation recomputes a fresh simple average
of the last `period` true ranges at each step and differs from the
Wilder recursion already on the concrete four-bar window. -/
theorem rsi_wilder_atr_fresh_average :
    (∀ (closes : List ℚ) (period : ℕ),
      rsi_series closes period = rsiWilder closes period) ∧
    compute_atr_points atrCexBars 2 ≠ atrWilder atrCexBars 2 := by
  constructor
  · intro closes period
    unfold rsi_series rsiWilder
    split
    · rfl
    · exact rsiLoop_eq_wilder period _ _ _
  · have h1 : compute_atr_points atrCexBars 2 = some 6 := by
      norm_num [compute_atr_points, atrCexBars, trLoop, quoteMid, midOnly]
    have h2 : atrWilder atrCexBars 2 = some (11 / 2) := by
      norm_num [atrWilder, atrCexBars, trLoop, quoteMid, midOnly, wilderStream,
        wilderNext]
    rw [h1, h2]
    norm_num

/-- C2 counterexample: with price 1, contract size 1, margin rate 1 and
minimum deal size 1 + 5·10⁻¹⁰ against working capital 1 (margin
utilization 1, leverage 5), the minimum-size margin strictly exceeds
the margin cap — yet, because the excess is below the source's 1e-9
tolerance, the sizer returns a feasible result of size 1 instead of the
claimed (0, 0, 0, infeasible). -/
theorem sizing_tolerance_cex :
    minSizeMarginOf tolCexDetails > marginCapOf 1 1 ∧
    compute_size_and_distances tolCexDetails 1 1 5 1 3 =
      ⟨1, 1, 3, "EUR", true⟩ := by
  constructor
  · norm_num [minSizeMarginOf, marginCapOf, priceOf, minSizeOf, contractSizeOf,
      first_margin_rate, tolCexDetails, pyOr]
  · norm_num [compute_size_and_distances, tolCexDetails, pyOr,
      first_margin_rate, defaultCurrency, pointsPerPip, round2, roundHalfEven,
      eps9]

/-- C2 as amended: whenever the minimum-size margin exceeds the margin
cap by more than the 1e-9 tolerance, or the minimum-size exposure
exceeds the exposure cap by more than that tolerance, the sizer refuses
to trade: it returns size 0, take-profit distance 0, stop-loss distance
0 and feasible = false, never downsizing below the broker minimum. -/
theorem sizing_infeasible_beyond_tolerance (d : Details)
    (target wc lev mu mult : ℚ)
    (h : minSizeMarginOf d > marginCapOf wc mu + eps9 ∨
      minSizeExposureOf d > exposureCapOf wc lev + eps9) :
    compute_size_and_distances d target wc lev mu mult =
      ⟨0, 0, 0, defaultCurrency d.instrument.currencies, false⟩ := by
  unfold compute_size_and_distances
  rw [if_pos]
  simpa [minSizeMarginOf, marginCapOf, minSizeExposureOf, exposureCapOf,
    priceOf, minSizeOf, contractSizeOf] using h

/-- Witness: minimum deal size 10 at price 10 and margin rate 1 against
working capital 1 is blocked as infeasible. -/
theorem sizing_infeasible_beyond_tolerance_witness :
    compute_size_and_distances infeasDetails 1 1 5 1 3 =
      ⟨0, 0, 0, defaultCurrency infeasDetails.instrument.currencies, false⟩ :=
  sizing_infeasible_beyond_tolerance infeasDetails 1 1 5 1 3
    (Or.inl (by
      norm_num [minSizeMarginOf, marginCapOf, priceOf, minSizeOf,
        contractSizeOf, first_margin_rate, infeasDetails, pyOr, eps9]))

/-- The sizer's `size_from_margin(margin_cap)` value. -/
def sizeFromMarginOf (d : Details) (wc mu : ℚ) : ℚ :=
  if marginCapOf wc mu ≤ 0 then 0
  else
    if priceOf d * contractSizeOf d * first_margin_rate d.instrument ≤ 0 then 0
    else
      marginCapOf wc mu /
        (priceOf d * contractSizeOf d * first_margin_rate d.instrument)

/-- The sizer's `size_from_exposure(exposure_cap)` value. -/
def sizeFromExposureOf (d : Details) (wc lev : ℚ) : ℚ :=
  if exposureCapOf wc lev ≤ 0 then 0
  else
    if priceOf d * contractSizeOf d ≤ 0 then 0
    else exposureCapOf wc lev / (priceOf d * contractSizeOf d)

/-- The sizer's `max_affordable_size`. -/
def maxAffordableSizeOf (d : Details) (wc lev mu : ℚ) : ℚ :=
  max 0 (min (sizeFromMarginOf d wc mu)
    (min (sizeFromExposureOf d wc lev) (maxSizeOf d)))

/-- The sizer's chosen `size` before the final rounding. -/
def chosenSizeOf (d : Details) (wc lev mu : ℚ) : ℚ :=
  min (max (minSizeOf d) (maxAffordableSizeOf d wc lev mu))
    (maxAffordableSizeOf d wc lev mu)

/-- The sizer's take-profit distance before the final rounding. -/
def limitDistanceOf (d : Details) (target wc lev mu : ℚ) : ℚ :=
  max (minLimitOf d)
    (max eps9 (target /
        (pyOr d.instrument.valueOfOnePip 1 * chosenSizeOf d wc lev mu)) *
      pointsPerPip d.instrument.onePipMeans)

/-- The sizer's stop-loss distance before the final rounding, with the
multiplier floored at 1. -/
def stopDistanceOf (d : Details) (target wc lev mu mult : ℚ) : ℚ :=
  max (minLimitOf d) (limitDistanceOf d target wc lev mu * max 1 mult)

/-- `compute_size_and_distances`, written through the named
intermediate quantities (a definitional identity). -/
theorem compute_size_eq (d : Details) (target wc lev mu mult : ℚ) :
    compute_size_and_distances d target wc lev mu mult =
      if minSizeMarginOf d > marginCapOf wc mu + eps9 ∨
          minSizeExposureOf d > exposureCapOf wc lev + eps9 then
        ⟨0, 0, 0, defaultCurrency d.instrument.currencies, false⟩
      else
        ⟨round2 (chosenSizeOf d wc lev mu),
          round2 (limitDistanceOf d target wc lev mu),
          round2 (stopDistanceOf d target wc lev mu mult),
          defaultCurrency d.instrument.currencies, true⟩ := rfl

theorem roundHalfEven_ge_floor (q : ℚ) : ⌊q⌋ ≤ roundHalfEven q := by
  unfold roundHalfEven
  dsimp only
  split_ifs <;> omega

theorem roundHalfEven_le_floor_add_one (q : ℚ) :
    roundHalfEven q ≤ ⌊q⌋ + 1 := by
  unfold roundHalfEven
  dsimp only
  split_ifs <;> omega

/-- Round-half-to-even is monotone. -/
theorem roundHalfEven_mono {a b : ℚ} (h : a ≤ b) :
    roundHalfEven a ≤ roundHalfEven b := by
  rcases lt_or_eq_of_le (Int.floor_le_floor h) with hf | hf
  · calc roundHalfEven a ≤ ⌊a⌋ + 1 := roundHalfEven_le_floor_add_one a
      _ ≤ ⌊b⌋ := by omega
      _ ≤ roundHalfEven b := roundHalfEven_ge_floor b
  · have hfa := Int.floor_le a
    have hfb := Int.lt_floor_add_one b
    unfold roundHalfEven
    rw [← hf]
    dsimp only
    have hr : a - (⌊a⌋ : ℚ) ≤ b - (⌊a⌋ : ℚ) := by linarith
    split_ifs <;> first | omega | (exfalso; linarith)

/-- Two-decimal rounding is monotone. -/
theorem round2_mono {a b : ℚ} (h : a ≤ b) : round2 a ≤ round2 b := by
  unfold round2
  have h1 : roundHalfEven (100 * a) ≤ roundHalfEven (100 * b) :=
    roundHalfEven_mono (by linarith)
  have h2 : ((roundHalfEven (100 * a) : ℤ) : ℚ) ≤
      ((roundHalfEven (100 * b) : ℤ) : ℚ) := by exact_mod_cast h1
  linarith

/-- C3 counterexample: with minimum deal size 0.5 but maximum deal size
0.2 and minimum distance 0.124, the sizer passes the minimum-size
budget check and returns feasible = true with size 0.2 — below the
broker minimum size — and, after the final two-decimal rounding, a
take-profit distance of 0.12 — below the broker minimum distance. -/
theorem sizing_feasible_bounds_cex :
    compute_size_and_distances maxCexDetails (1 / 100) 100 5 1 3 =
      ⟨1 / 5, 3 / 25, 37 / 100, "EUR", true⟩ ∧
    (1 / 5 : ℚ) < minSizeOf maxCexDetails ∧
    (3 / 25 : ℚ) < minLimitOf maxCexDetails := by
  refine ⟨?_, ?_, ?_⟩
  · norm_num [compute_size_and_distances, maxCexDetails, pyOr,
      first_margin_rate, defaultCurrency, pointsPerPip, round2, roundHalfEven,
      eps9]
  · norm_num [minSizeOf, maxCexDetails, pyOr]
  · norm_num [minLimitOf, maxCexDetails, pyOr]

/-- C3 as amended: on every feasible result with a positive pip-point
factor, before rounding the distances satisfy stop ≥ take-profit ≥
broker minimum (the stop multiplier floored at 1), and after the final
two-decimal rounding the returned values still satisfy sl ≥ tp with
each distance at least the rounded broker minimum; the returned size is
at least the rounded broker minimum size provided the broker maximum is
not below the minimum and the minimum-size margin and exposure lie
within their caps without the 1e-9 tolerance (for a market with
positive price × contract size and positive margin rate). -/
theorem sizing_feasible_bounds (d : Details) (target wc lev mu mult : ℚ)
    (hppp : 0 < pointsPerPip d.instrument.onePipMeans)
    (hfeas :
      (compute_size_and_distances d target wc lev mu mult).feasible = true) :
    round2 (minLimitOf d) ≤
      (compute_size_and_distances d target wc lev mu mult).tp ∧
    (compute_size_and_distances d target wc lev mu mult).tp ≤
      (compute_size_and_distances d target wc lev mu mult).sl ∧
    round2 (minLimitOf d) ≤
      (compute_size_and_distances d target wc lev mu mult).sl ∧
    (minSizeOf d ≤ maxSizeOf d →
      minSizeMarginOf d ≤ marginCapOf wc mu →
      minSizeExposureOf d ≤ exposureCapOf wc lev →
      0 < priceOf d * contractSizeOf d →
      0 < first_margin_rate d.instrument →
      round2 (minSizeOf d) ≤
        (compute_size_and_distances d target wc lev mu mult).size) := by
  by_cases hc : minSizeMarginOf d > marginCapOf wc mu + eps9 ∨
      minSizeExposureOf d > exposureCapOf wc lev + eps9
  · rw [compute_size_eq, if_pos hc] at hfeas
    simp at hfeas
  · rw [compute_size_eq, if_neg hc]
    have hL : minLimitOf d ≤ limitDistanceOf d target wc lev mu :=
      le_max_left _ _
    have hLpos : 0 < limitDistanceOf d target wc lev mu := by
      have h1 : (0 : ℚ) < max eps9 (target /
          (pyOr d.instrument.valueOfOnePip 1 * chosenSizeOf d wc lev mu)) :=
        lt_of_lt_of_le (by norm_num [eps9]) (le_max_left _ _)
      exact lt_of_lt_of_le (mul_pos h1 hppp) (le_max_right _ _)
    have hLS : limitDistanceOf d target wc lev mu ≤
        stopDistanceOf d target wc lev mu mult := by
      have h1 : limitDistanceOf d target wc lev mu * 1 ≤
          limitDistanceOf d target wc lev mu * max 1 mult :=
        mul_le_mul_of_nonneg_left (le_max_left 1 mult) (le_of_lt hLpos)
      rw [mul_one] at h1
      exact le_trans h1 (le_max_right _ _)
    refine ⟨round2_mono hL, round2_mono hLS, round2_mono (le_max_left _ _),
      fun h1 h2 h3 hpc hrate => round2_mono ?_⟩
    have hden : 0 < priceOf d * contractSizeOf d * first_margin_rate d.instrument :=
      mul_pos hpc hrate
    have hsfm : minSizeOf d ≤ sizeFromMarginOf d wc mu := by
      unfold sizeFromMarginOf
      by_cases hcm : marginCapOf wc mu ≤ 0
      · rw [if_pos hcm]
        by_contra hM
        push_neg at hM
        have hMden : 0 < minSizeOf d *
            (priceOf d * contractSizeOf d * first_margin_rate d.instrument) :=
          mul_pos hM hden
        have heq : minSizeMarginOf d = minSizeOf d *
            (priceOf d * contractSizeOf d * first_margin_rate d.instrument) := by
          unfold minSizeMarginOf
          ring
        linarith
      · rw [if_neg hcm, if_neg (not_le.mpr hden), le_div_iff₀ hden]
        calc minSizeOf d *
            (priceOf d * contractSizeOf d * first_margin_rate d.instrument) =
            minSizeMarginOf d := by unfold minSizeMarginOf; ring
          _ ≤ marginCapOf wc mu := h2
    have hsfe : minSizeOf d ≤ sizeFromExposureOf d wc lev := by
      unfold sizeFromExposureOf
      by_cases hce : exposureCapOf wc lev ≤ 0
      · rw [if_pos hce]
        by_contra hM
        push_neg at hM
        have hMden : 0 < minSizeOf d * (priceOf d * contractSizeOf d) :=
          mul_pos hM hpc
        have heq : minSizeExposureOf d =
            minSizeOf d * (priceOf d * contractSizeOf d) := by
          unfold minSizeExposureOf
          ring
        linarith
      · rw [if_neg hce, if_neg (not_le.mpr hpc), le_div_iff₀ hpc]
        calc minSizeOf d * (priceOf d * contractSizeOf d) =
            minSizeExposureOf d := by unfold minSizeExposureOf; ring
          _ ≤ exposureCapOf wc lev := h3
    have hmas : minSizeOf d ≤ maxAffordableSizeOf d wc lev mu :=
      le_trans (le_min hsfm (le_min hsfe h1)) (le_max_right 0 _)
    unfold chosenSizeOf
    rw [max_eq_right hmas, min_self]
    exact hmas

/-- Witness: a comfortably feasible market returns size 50 with
distances 1 and 3, all respecting the broker minima. -/
theorem sizing_feasible_bounds_witness :
    round2 (minLimitOf feasDetails) ≤
      (compute_size_and_distances feasDetails 1 100 5 1 3).tp ∧
    (compute_size_and_distances feasDetails 1 100 5 1 3).tp ≤
      (compute_size_and_distances feasDetails 1 100 5 1 3).sl ∧
    round2 (minLimitOf feasDetails) ≤
      (compute_size_and_distances feasDetails 1 100 5 1 3).sl ∧
    round2 (minSizeOf feasDetails) ≤
      (compute_size_and_distances feasDetails 1 100 5 1 3).size :=
  have h := sizing_feasible_bounds feasDetails 1 100 5 1 3
    (by norm_num [pointsPerPip, feasDetails])
    (by
      norm_num [compute_size_and_distances, feasDetails, pyOr,
        first_margin_rate, defaultCurrency, pointsPerPip, round2,
        roundHalfEven, eps9])
  ⟨h.1, h.2.1, h.2.2.1,
    h.2.2.2
      (by norm_num [minSizeOf, maxSizeOf, feasDetails, pyOr])
      (by
        norm_num [minSizeMarginOf, marginCapOf, priceOf, minSizeOf,
          contractSizeOf, first_margin_rate, feasDetails, pyOr])
      (by
        norm_num [minSizeExposureOf, exposureCapOf, priceOf, minSizeOf,
          contractSizeOf, feasDetails, pyOr])
      (by norm_num [priceOf, contractSizeOf, feasDetails, pyOr])
      (by norm_num [first_margin_rate, feasDetails])⟩

end IGBot
